import Mathlib

/-!
Verification development for the clr-gmessages-bridge event-ingestion and
reconciliation pipeline.

The Supabase SQL upsert functions, the event handler, and the secondary
sink writer are embedded from the repository sources.  The local SQLite
store methods and the normalizer extraction helpers are declared and
called by the sources but their bodies are not part of the sources; those
definitions are modelled from the specification and marked as such in
their doc comments.
-/

/-! ## Generic keyed table with upsert semantics

A relational table is modelled as a list of rows.  An upsert keyed by a
primary key updates the first row whose key matches and otherwise appends
the new row, exactly mirroring INSERT ... ON CONFLICT ... DO UPDATE on a
table whose primary key makes the match unique. -/

def upsertBy {α κ : Type} [DecidableEq κ] (key : α → κ) (upd : α → α → α) :
    List α → α → List α
  | [], p => [p]
  | r :: rs, p =>
    if key r = key p then upd r p :: rs else r :: upsertBy key upd rs p

def findBy {α κ : Type} [DecidableEq κ] (key : α → κ) (t : List α) (k : κ) :
    Option α :=
  t.find? (fun r => decide (key r = k))

/-! ## Supabase SQL schema model

Embedded from the SQL migration: tables conversations, messages, contacts
and the RPC functions upsert_conversation, upsert_message, upsert_contact. -/

/-- SQL NULLIF(s, ''): none when the string is empty. -/
def nullifEmpty (s : String) : Option String :=
  if s = "" then none else some s

structure SBConversation where
  conversation_id : String
  name : String
  last_message_time : Int
  is_group : Bool
  last_message_preview : String
deriving DecidableEq, Repr

/-- The ON CONFLICT update of upsert_conversation: coalesce name and
preview by non-emptiness, GREATEST on last_message_time, overwrite
is_group. -/
def updSBConversation (r p : SBConversation) : SBConversation :=
  { conversation_id := r.conversation_id
    name := (nullifEmpty p.name).getD r.name
    last_message_time := max r.last_message_time p.last_message_time
    is_group := p.is_group
    last_message_preview := (nullifEmpty p.last_message_preview).getD r.last_message_preview }

def upsert_conversation (t : List SBConversation) (p : SBConversation) :
    List SBConversation :=
  upsertBy (fun c => c.conversation_id) updSBConversation t p

structure SBMessage where
  id : String
  conversation_id : String
  sender_name : String
  sender_number : String
  content : String
  timestamp : Int
  is_from_me : Bool
  media_type : String
  media_url : String
deriving DecidableEq, Repr

/-- The ON CONFLICT update of upsert_message: coalesce content,
media_type, media_url by non-emptiness; every other column keeps its
stored value. -/
def updSBMessage (r p : SBMessage) : SBMessage :=
  { r with
    content := (nullifEmpty p.content).getD r.content
    media_type := (nullifEmpty p.media_type).getD r.media_type
    media_url := (nullifEmpty p.media_url).getD r.media_url }

def upsert_message (t : List SBMessage) (p : SBMessage) : List SBMessage :=
  upsertBy (fun m => (m.id, m.conversation_id)) updSBMessage t p

structure SBContact where
  number : String
  name : String
deriving DecidableEq, Repr

/-- The ON CONFLICT update of upsert_contact: coalesce name by
non-emptiness. -/
def updSBContact (r p : SBContact) : SBContact :=
  { r with name := (nullifEmpty p.name).getD r.name }

def upsert_contact (t : List SBContact) (p : SBContact) : List SBContact :=
  upsertBy (fun c => c.number) updSBContact t p

/-! ## Iterated application, for idempotence statements -/

def applyTimes {σ : Type} (f : σ → σ) : Nat → σ → σ
  | 0, s => s
  | n + 1, s => applyTimes f n (f s)

/-! ## Primary SQLite store (internal/db)

The row types are embedded from the Go structs of the db package.  The
method bodies of the store (UpsertMessage, UpsertConversation,
UpdateConversationTimestamp, DeleteTmpMessages and the read queries) are
called and tested by the sources but their implementation file is not
among the sources; they are modelled from the specification below. -/

structure Message where
  MessageID : String
  ConversationID : String
  SenderName : String
  SenderNumber : String
  Body : String
  TimestampMS : Int
  Status : String
  IsFromMe : Bool
  MediaID : String
  MimeType : String
  DecryptionKey : String
  Reactions : String
  ReplyToID : String
deriving DecidableEq, Repr

structure Conversation where
  ConversationID : String
  Name : String
  IsGroup : Bool
  Participants : String
  LastMessageTS : Int
  UnreadCount : Int
deriving DecidableEq, Repr

structure Contact where
  ContactID : String
  Name : String
  Number : String
deriving DecidableEq, Repr

structure Draft where
  DraftID : String
  ConversationID : String
  Body : String
  CreatedAt : Int
deriving DecidableEq, Repr

structure Store where
  conversations : List Conversation
  messages : List Message
  contacts : List Contact
  drafts : List Draft
deriving DecidableEq, Repr

def emptyStore : Store := ⟨[], [], [], []⟩

/-- Modelled from the spec: section 4.3 upsert semantics for the message
row, keyed by the message identifier (the SQLite primary key).  Fields
where partial updates are expected (sender identity, body text, media
reference, reaction payload, reply linkage) follow the
coalesce-by-non-emptiness rule; authoritative fields (conversation id,
timestamp, delivery status, direction flag) take the incoming value. -/
def updDbMessage (r p : Message) : Message :=
  { MessageID := r.MessageID
    ConversationID := p.ConversationID
    SenderName := if p.SenderName = "" then r.SenderName else p.SenderName
    SenderNumber := if p.SenderNumber = "" then r.SenderNumber else p.SenderNumber
    Body := if p.Body = "" then r.Body else p.Body
    TimestampMS := p.TimestampMS
    Status := p.Status
    IsFromMe := p.IsFromMe
    MediaID := if p.MediaID = "" then r.MediaID else p.MediaID
    MimeType := if p.MimeType = "" then r.MimeType else p.MimeType
    DecryptionKey := if p.DecryptionKey = "" then r.DecryptionKey else p.DecryptionKey
    Reactions := if p.Reactions = "" then r.Reactions else p.Reactions
    ReplyToID := if p.ReplyToID = "" then r.ReplyToID else p.ReplyToID }

/-- Modelled from the spec: Store.UpsertMessage — insert if absent, else
update the row with the same message id under the per-field policy of
updDbMessage (spec section 4.3: upsert, never insert-duplicate). -/
def Store.UpsertMessage (s : Store) (p : Message) : Store :=
  { s with messages := upsertBy (fun m => m.MessageID) updDbMessage s.messages p }

/-- Modelled from the spec: section 4.3 upsert semantics for the
conversation row — coalesce name by non-emptiness, monotonic maximum for
the last-message timestamp, overwrite the group flag and the
authoritative participant list and unread counter. -/
def updDbConversation (r p : Conversation) : Conversation :=
  { ConversationID := r.ConversationID
    Name := if p.Name = "" then r.Name else p.Name
    IsGroup := p.IsGroup
    Participants := p.Participants
    LastMessageTS := max r.LastMessageTS p.LastMessageTS
    UnreadCount := p.UnreadCount }

/-- Modelled from the spec: Store.UpsertConversation — insert if absent,
else update the row with the same conversation id under updDbConversation. -/
def Store.UpsertConversation (s : Store) (p : Conversation) : Store :=
  { s with conversations := upsertBy (fun c => c.ConversationID) updDbConversation s.conversations p }

/-- Modelled from the spec: the send-time recency bump
(UpdateConversationTimestamp) must use the identical monotonic semantics
of section 4.3, so the stored last-message timestamp only moves forward;
a missing conversation row is left alone (UPDATE with no matching rows). -/
def Store.UpdateConversationTimestamp (s : Store) (convID : String) (ts : Int) : Store :=
  { s with
    conversations := s.conversations.map (fun c =>
      if c.ConversationID = convID then { c with LastMessageTS := max c.LastMessageTS ts } else c) }

/-- Go strings.HasPrefix: the tag is a prefix of the string. -/
def hasTag (s tag : String) : Bool := tag.data.isPrefixOf s.data

/-- A message row is a placeholder row of conversation convID when its
conversation matches and its id carries the lexical placeholder tag
(the tmp underscore prefix used by the event handler at send time). -/
def isTmpIn (convID : String) (m : Message) : Bool :=
  decide (m.ConversationID = convID) && hasTag m.MessageID "tmp_"

/-- Modelled from the spec: Store.DeleteTmpMessages — deletes all
placeholder-tagged rows currently stored for the given conversation and
reports how many were removed. -/
def Store.DeleteTmpMessages (s : Store) (convID : String) : Store × Nat :=
  ({ s with messages := s.messages.filter (fun m => !(isTmpIn convID m)) },
   (s.messages.filter (fun m => isTmpIn convID m)).length)

/-! ### Read queries (external interface over the primary store) -/

/-- Newest-first ordering on message rows: the left row is at least as
recent as the right row. -/
def tsGE (a b : Message) : Prop := b.TimestampMS ≤ a.TimestampMS

instance : DecidableRel tsGE := fun a b => Int.decLe b.TimestampMS a.TimestampMS

instance : IsTotal Message tsGE := ⟨fun a b => le_total b.TimestampMS a.TimestampMS⟩

instance : IsTrans Message tsGE := ⟨fun _ _ _ h₁ h₂ => le_trans h₂ h₁⟩

/-- Modelled from the spec: row filter of GetMessages — sender routing
number equality when a sender filter is given, and an inclusive
time-range check for whichever bounds are given (zero disables a bound). -/
def msgFilter (phone : String) (a b : Int) (m : Message) : Bool :=
  (decide (phone = "") || decide (m.SenderNumber = phone)) &&
  (decide (a = 0) || decide (a ≤ m.TimestampMS)) &&
  (decide (b = 0) || decide (m.TimestampMS ≤ b))

/-- Modelled from the spec: GetMessages — messages passing the
sender/time-range filter, ordered newest-first, truncated to the limit. -/
def Store.GetMessages (s : Store) (phone : String) (afterMS beforeMS : Int) (limit : Nat) :
    List Message :=
  (((s.messages.filter (msgFilter phone afterMS beforeMS)).insertionSort tsGE).take limit)

/-- Modelled from the spec: GetMessagesByConversation — the messages of
one conversation, ordered newest-first, truncated to the limit. -/
def Store.GetMessagesByConversation (s : Store) (convID : String) (limit : Nat) :
    List Message :=
  (((s.messages.filter (fun m => decide (m.ConversationID = convID))).insertionSort tsGE).take limit)

def lcString (s : String) : String := s.map Char.toLower

def containsSub (needle : List Char) : List Char → Bool
  | [] => needle.isEmpty
  | c :: t => needle.isPrefixOf (c :: t) || containsSub needle t

/-- Case-insensitive substring test over message bodies, modelling the
SQL LIKE filter of the search query. -/
def strContainsCI (hay q : String) : Bool :=
  containsSub (lcString q).data (lcString hay).data

/-- Modelled from the spec: SearchMessages — substring search over
message bodies with an optional sender filter, newest-first, limited. -/
def Store.SearchMessages (s : Store) (q phone : String) (limit : Nat) : List Message :=
  (((s.messages.filter (fun m =>
      strContainsCI m.Body q && (decide (phone = "") || decide (m.SenderNumber = phone)))).insertionSort tsGE).take limit)

/-! ## Normalizer (internal/client extraction helpers)

The extraction helpers (ExtractMessageBody, ExtractSenderInfo,
ExtractMediaInfo, ExtractReactions, ExtractReplyToID) are called by the
event handler sources but their implementation file is not among the
sources; they are modelled from the specification, section 4.2. -/

structure GParticipant where
  fullName : String
  idNumber : Option String
  formattedNumber : String
  isMe : Bool
deriving DecidableEq, Repr

structure MediaInfo where
  MediaID : String
  MimeType : String
  DecryptionKey : List Nat
deriving DecidableEq, Repr

structure Reaction where
  emoji : String
  count : Int
deriving DecidableEq, Repr

/-- Raw protocol message payload, reduced to the fields the event handler
reads: identifiers, timestamp in microseconds, optional status, optional
sender participant, text content parts, optional media attachment,
optional reaction set and reply linkage. -/
structure GMessage where
  messageID : String
  conversationID : String
  timestampMicros : Int
  messageStatus : Option String
  senderParticipant : Option GParticipant
  contentParts : List String
  media : Option MediaInfo
  reactionSet : Option (List Reaction)
  replyToID : String
deriving DecidableEq, Repr

def firstNonEmpty : List String → String
  | [] => ""
  | s :: rest => if s = "" then firstNonEmpty rest else s

/-- Modelled from the spec: body text is the first non-empty text content
found among the message content parts; empty if none. -/
def ExtractMessageBody (msg : GMessage) : String :=
  firstNonEmpty msg.contentParts

/-- The routing number of a participant: the identifier number when
present and non-empty, else the formatted number. -/
def participantNumber (p : GParticipant) : String :=
  let n := p.idNumber.getD ""
  if n = "" then p.formattedNumber else n

/-- Modelled from the spec: sender identity is the participant display
name plus routing number; both empty when the payload carries no sender
participant. -/
def ExtractSenderInfo (msg : GMessage) : String × String :=
  match msg.senderParticipant with
  | none => ("", "")
  | some p => (p.fullName, participantNumber p)

/-- Modelled from the spec: the media reference is present only if the
message carries an attachment. -/
def ExtractMediaInfo (msg : GMessage) : Option MediaInfo := msg.media

/-- Modelled from the spec: the reaction set is optional and carried in
full when present. -/
def ExtractReactions (msg : GMessage) : Option (List Reaction) := msg.reactionSet

/-- Modelled from the spec: optional reply-target message id, empty when
absent. -/
def ExtractReplyToID (msg : GMessage) : String := msg.replyToID

def hexDigit (n : Nat) : Char :=
  if n < 10 then Char.ofNat (48 + n) else Char.ofNat (87 + n)

def hexByte (b : Nat) : List Char :=
  [hexDigit ((b / 16) % 16), hexDigit (b % 16)]

/-- Lowercase hex encoding of opaque key bytes at the storage boundary. -/
def hexEncode (bs : List Nat) : String :=
  String.mk (bs.map hexByte).flatten

/-- JSON serialization of the reaction set, as stored in the reactions
column. -/
def reactionsJSON (rs : List Reaction) : String :=
  "[" ++ String.intercalate ","
    (rs.map (fun r => "\x7b\"emoji\":\"" ++ r.emoji ++ "\",\"count\":" ++ toString r.count ++ "\x7d")) ++ "]"

/-! ## Event handler (internal/client events)

Embedded from the event handler sources: the dispatcher and its message
and conversation handlers.  The optional secondary sink is modelled by a
supabaseEnabled flag (nil or non-nil Supabase field); a primary store
write failure is modelled by a primaryFails flag; the fire-and-forget
goroutine bodies are modelled as lists of emitted sink calls. -/

/-- The db.Message value built by handleMessage from a raw payload. -/
def buildDbMessage (msg : GMessage) : Message :=
  let body := ExtractMessageBody msg
  let si := ExtractSenderInfo msg
  let status := match msg.messageStatus with
    | some st => st
    | none => "unknown"
  let base : Message :=
    { MessageID := msg.messageID
      ConversationID := msg.conversationID
      SenderName := si.1
      SenderNumber := si.2
      Body := body
      TimestampMS := Int.tdiv msg.timestampMicros 1000
      Status := status
      IsFromMe := match msg.senderParticipant with
        | some p => p.isMe
        | none => false
      MediaID := ""
      MimeType := ""
      DecryptionKey := ""
      Reactions := ""
      ReplyToID := ExtractReplyToID msg }
  let withMedia := match ExtractMediaInfo msg with
    | some mi => { base with
        MediaID := mi.MediaID
        MimeType := mi.MimeType
        DecryptionKey := hexEncode mi.DecryptionKey }
    | none => base
  match ExtractReactions msg with
  | some rs => { withMedia with Reactions := reactionsJSON rs }
  | none => withMedia

structure WrappedMessage where
  message : GMessage
  isOld : Bool
deriving DecidableEq, Repr

/-- One call to the secondary sink writer UpsertMessage, with the
argument list used at the call site. -/
structure SinkMessageCall where
  id : String
  conversationID : String
  senderName : String
  senderNumber : String
  content : String
  timestampMS : Int
  isFromMe : Bool
  mediaType : String
  mediaURL : String
deriving DecidableEq, Repr

/-- One call to the secondary sink writer UpsertConversation. -/
structure SinkConvCall where
  convID : String
  name : String
  lastMessageTS : Int
  isGroup : Bool
  lastPreview : String
deriving DecidableEq, Repr

/-- One call to the secondary sink writer UpsertContact. -/
structure SinkContactCall where
  number : String
  name : String
deriving DecidableEq, Repr

def mkSinkMessageCall (m : Message) : SinkMessageCall :=
  { id := m.MessageID
    conversationID := m.ConversationID
    senderName := m.SenderName
    senderNumber := m.SenderNumber
    content := m.Body
    timestampMS := m.TimestampMS
    isFromMe := m.IsFromMe
    mediaType := m.MimeType
    mediaURL := "" }

/-- handleMessage: build the row, write it to the primary store (on a
write failure log and return, touching nothing else), emit the deferred
secondary sink call when the sink is wired, then sweep placeholder rows
of the conversation when a confirmed from-me message echoed back. -/
def handleMessage (supabaseEnabled primaryFails : Bool) (s : Store) (evt : WrappedMessage) :
    Store × List SinkMessageCall :=
  let dbMsg := buildDbMessage evt.message
  if primaryFails then (s, [])
  else
    let s1 := s.UpsertMessage dbMsg
    let calls := if supabaseEnabled then [mkSinkMessageCall dbMsg] else []
    let s2 := if dbMsg.IsFromMe && !(hasTag dbMsg.MessageID "tmp_")
      then (s1.DeleteTmpMessages dbMsg.ConversationID).1
      else s1
    (s2, calls)

/-- Participant info record marshalled into the participants JSON column
and read back for the contact fan-out. -/
structure PInfo where
  name : String
  number : String
  isMe : Bool
deriving DecidableEq, Repr

def toPInfo (p : GParticipant) : PInfo :=
  { name := p.fullName, number := participantNumber p, isMe := p.isMe }

def pInfoJSON (i : PInfo) : String :=
  "\x7b\"name\":\"" ++ i.name ++ "\",\"number\":\"" ++ i.number ++ "\"" ++
    (if i.isMe then ",\"is_me\":true" else "") ++ "\x7d"

def participantsJSON (ps : List PInfo) : String :=
  "[" ++ String.intercalate "," (ps.map pInfoJSON) ++ "]"

/-- Raw protocol conversation payload, reduced to the fields the handler
reads. -/
structure GConversation where
  conversationID : String
  name : String
  isGroupChat : Bool
  participants : List GParticipant
  lastMessageTimestampMicros : Int
  unread : Bool
deriving DecidableEq, Repr

/-- The db.Conversation value built by handleConversation. -/
def buildDbConversation (conv : GConversation) : Conversation :=
  { ConversationID := conv.conversationID
    Name := conv.name
    IsGroup := conv.isGroupChat
    Participants := participantsJSON (conv.participants.map toPInfo)
    LastMessageTS := Int.tdiv conv.lastMessageTimestampMicros 1000
    UnreadCount := if conv.unread then 1 else 0 }

/-- handleConversation: build the row, write it to the primary store (on
a write failure log and return), then emit the deferred secondary sink
calls when the sink is wired: the conversation mirror followed by one
contact upsert per non-self participant with a non-empty number.  The
marshal and unmarshal of the participants JSON inside the goroutine is a
roundtrip and is modelled as the identity on the participant records. -/
def handleConversation (supabaseEnabled primaryFails : Bool) (s : Store) (conv : GConversation) :
    Store × List SinkConvCall × List SinkContactCall :=
  let dbConv := buildDbConversation conv
  if primaryFails then (s, [], [])
  else
    let s1 := s.UpsertConversation dbConv
    if supabaseEnabled then
      let infos := conv.participants.map toPInfo
      (s1,
       [{ convID := dbConv.ConversationID, name := dbConv.Name,
          lastMessageTS := dbConv.LastMessageTS, isGroup := dbConv.IsGroup, lastPreview := "" }],
       (infos.filter (fun i => !(decide (i.number = "")) && !i.isMe)).map
         (fun i => { number := i.number, name := i.name }))
    else (s1, [], [])

/-- The closed set of event variants dispatched by Handle; the
unrecognized constructor stands for the default branch of the type
switch. -/
inductive Event where
  | clientReady (convs : List GConversation)
  | messageReceived (evt : WrappedMessage)
  | conversationUpdated (conv : GConversation)
  | authTokenRefreshed
  | pairSuccessful
  | listenFatalError
  | listenTemporaryError
  | listenRecovered
  | phoneNotResponding
  | phoneRespondingAgain
  | unrecognized
deriving DecidableEq, Repr

structure SinkEffects where
  convCalls : List SinkConvCall
  messageCalls : List SinkMessageCall
  contactCalls : List SinkContactCall
deriving DecidableEq, Repr

def noEffects : SinkEffects := ⟨[], [], []⟩

def handleClientReady (supabaseEnabled primaryFails : Bool) (s : Store)
    (convs : List GConversation) : Store × SinkEffects :=
  convs.foldl (fun acc c =>
    let r := handleConversation supabaseEnabled primaryFails acc.1 c
    (r.1, { acc.2 with
      convCalls := acc.2.convCalls ++ r.2.1
      contactCalls := acc.2.contactCalls ++ r.2.2 })) (s, noEffects)

/-- Handle: the single dispatcher entry point.  Log-only variants and the
unrecognized default leave the store untouched and emit nothing; the
auth-token refresh re-serializes session credentials outside the store. -/
def Handle (supabaseEnabled primaryFails : Bool) (s : Store) : Event → Store × SinkEffects
  | .clientReady convs => handleClientReady supabaseEnabled primaryFails s convs
  | .messageReceived evt =>
    let r := handleMessage supabaseEnabled primaryFails s evt
    (r.1, { noEffects with messageCalls := r.2 })
  | .conversationUpdated conv =>
    let r := handleConversation supabaseEnabled primaryFails s conv
    (r.1, { noEffects with convCalls := r.2.1, contactCalls := r.2.2 })
  | .authTokenRefreshed => (s, noEffects)
  | .pairSuccessful => (s, noEffects)
  | .listenFatalError => (s, noEffects)
  | .listenTemporaryError => (s, noEffects)
  | .listenRecovered => (s, noEffects)
  | .phoneNotResponding => (s, noEffects)
  | .phoneRespondingAgain => (s, noEffects)
  | .unrecognized => (s, noEffects)

/-- dispatchMessage: the message path together with the detached sink
stage.  The sink outcome oracle decides which deferred calls fail; the
pair returned to the caller carries the primary store and the call
outcomes only for inspection in proofs. -/
def dispatchMessage (supabaseEnabled primaryFails : Bool)
    (sinkFails : SinkMessageCall → Bool) (s : Store) (evt : WrappedMessage) :
    Store × List (SinkMessageCall × Bool) :=
  let r := handleMessage supabaseEnabled primaryFails s evt
  (r.1, r.2.map (fun c => (c, sinkFails c)))

/-! ## Secondary sink writer (supabase package)

Embedded from the writer sources: UpsertMessage skips the remote call
entirely when both the content and the media type are empty; otherwise it
issues one PostgREST RPC. -/

structure RpcCall where
  funcName : String
  params : List (String × String)
deriving DecidableEq, Repr

def boolJSON (b : Bool) : String := if b then "true" else "false"

/-- Writer.UpsertMessage: none models the early return nil with no remote
call; some models the single upsert_message RPC. -/
def writerUpsertMessage (id conversationID senderName senderNumber content : String)
    (timestampMS : Int) (isFromMe : Bool) (mediaType mediaURL : String) : Option RpcCall :=
  if content = "" ∧ mediaType = "" then none
  else some
    { funcName := "upsert_message"
      params := [("p_id", id), ("p_conversation_id", conversationID),
                 ("p_sender_name", senderName), ("p_sender_number", senderNumber),
                 ("p_content", content), ("p_timestamp", toString timestampMS),
                 ("p_is_from_me", boolJSON isFromMe), ("p_media_type", mediaType),
                 ("p_media_url", mediaURL)] }

/-! ## Read-path serialization (internal/web api)

Embedded from the db.Message struct tags: DecryptionKey carries the json
dash tag and is never serialized; MediaID, MimeType, Reactions and
ReplyToID are omitted when empty. -/

def serializeMessage (m : Message) : List (String × String) :=
  [("MessageID", m.MessageID), ("ConversationID", m.ConversationID),
   ("SenderName", m.SenderName), ("SenderNumber", m.SenderNumber),
   ("Body", m.Body), ("TimestampMS", toString m.TimestampMS),
   ("Status", m.Status), ("IsFromMe", boolJSON m.IsFromMe)] ++
  (if m.MediaID = "" then [] else [("MediaID", m.MediaID)]) ++
  (if m.MimeType = "" then [] else [("MimeType", m.MimeType)]) ++
  (if m.Reactions = "" then [] else [("Reactions", m.Reactions)]) ++
  (if m.ReplyToID = "" then [] else [("ReplyToID", m.ReplyToID)])

/-- Response body of the conversation message listing endpoint. -/
def apiConversationMessages (s : Store) (convID : String) (limit : Nat) :
    List (List (String × String)) :=
  (s.GetMessagesByConversation convID limit).map serializeMessage

/-- Response body of the search endpoint. -/
def apiSearch (s : Store) (q : String) (limit : Nat) :
    List (List (String × String)) :=
  (s.SearchMessages q "" limit).map serializeMessage

/-- Response body of the filtered message query surface. -/
def apiGetMessages (s : Store) (phone : String) (afterMS beforeMS : Int) (limit : Nat) :
    List (List (String × String)) :=
  (s.GetMessages phone afterMS beforeMS limit).map serializeMessage

/-- A message row with its decryption key material blanked. -/
def eraseKey (m : Message) : Message := { m with DecryptionKey := "" }

/-- A store with all decryption key material blanked; two stores with the
same erasure differ only in key material. -/
def eraseStore (s : Store) : Store := { s with messages := s.messages.map eraseKey }

/-! ## Generic lemmas about keyed tables -/

theorem findBy_cons {α κ : Type} [DecidableEq κ] (key : α → κ) (r : α) (rs : List α) (k : κ) :
    findBy key (r :: rs) k = if key r = k then some r else findBy key rs k := by
  by_cases h : key r = k <;> simp [findBy, List.find?_cons, h]

theorem findBy_upsertBy {α κ : Type} [DecidableEq κ] (key : α → κ) (upd : α → α → α)
    (hk : ∀ r p, key r = key p → key (upd r p) = key r) (t : List α) (p : α) (k : κ) :
    findBy key (upsertBy key upd t p) k =
      if key p = k then
        some (match findBy key t k with
          | some r => upd r p
          | none => p)
      else findBy key t k := by
  induction t with
  | nil =>
    by_cases h : key p = k <;> simp [upsertBy, findBy_cons, findBy, h]
  | cons r rs ih =>
    by_cases h1 : key r = key p
    · have hku : key (upd r p) = key r := hk r p h1
      by_cases h2 : key p = k
      · have hrk : key r = k := by rw [h1, h2]
        simp [upsertBy, h1, findBy_cons, hku, hrk, h2]
      · have hrk : ¬ key r = k := by rw [h1]; exact h2
        simp [upsertBy, h1, findBy_cons, hku, hrk, h2]
    · by_cases h2 : key r = k
      · have hpk : ¬ key p = k := fun hh => h1 (h2.trans hh.symm)
        have hkp : ¬ k = key p := fun hh => hpk hh.symm
        simp [upsertBy, h1, findBy_cons, h2, hpk, hkp]
      · simp [upsertBy, h1, findBy_cons, h2, ih]

theorem findBy_some_key {α κ : Type} [DecidableEq κ] (key : α → κ) (t : List α) (k : κ)
    (r : α) (h : findBy key t k = some r) : key r = k := by
  have := List.find?_some h
  simpa using this

theorem findBy_mem {α κ : Type} [DecidableEq κ] (key : α → κ) (t : List α) (k : κ)
    (r : α) (h : findBy key t k = some r) : r ∈ t :=
  List.mem_of_find?_eq_some h

theorem mem_upsertBy_of_key_ne {α κ : Type} [DecidableEq κ] (key : α → κ) (upd : α → α → α)
    (t : List α) (p m : α) (hm : m ∈ t) (hne : key m ≠ key p) :
    m ∈ upsertBy key upd t p := by
  induction t with
  | nil => cases hm
  | cons r rs ih =>
    by_cases h1 : key r = key p
    · rcases List.mem_cons.mp hm with rfl | h
      · exact absurd h1 hne
      · simpa [upsertBy, h1] using Or.inr h
    · rcases List.mem_cons.mp hm with rfl | h
      · simp [upsertBy, h1]
      · simpa [upsertBy, h1] using Or.inr (ih h)

theorem upsertBy_idem {α κ : Type} [DecidableEq κ] (key : α → κ) (upd : α → α → α)
    (hk : ∀ r p, key r = key p → key (upd r p) = key r)
    (hupd : ∀ r p, upd (upd r p) p = upd r p)
    (hpp : ∀ p, upd p p = p) (t : List α) (p : α) :
    upsertBy key upd (upsertBy key upd t p) p = upsertBy key upd t p := by
  induction t with
  | nil => simp [upsertBy, hpp]
  | cons r rs ih =>
    by_cases h1 : key r = key p
    · have hku : key (upd r p) = key p := (hk r p h1).trans h1
      simp [upsertBy, h1, hku, hupd]
    · simp [upsertBy, h1, ih]

theorem findBy_map_preserve {α κ : Type} [DecidableEq κ] (key : α → κ) (f : α → α)
    (hf : ∀ a, key (f a) = key a) (t : List α) (k : κ) :
    findBy key (t.map f) k = (findBy key t k).map f := by
  induction t with
  | nil => rfl
  | cons r rs ih => by_cases h : key r = k <;> simp [findBy_cons, hf, h, ih]

theorem applyTimes_of_idem {σ : Type} (f : σ → σ) (hf : ∀ s, f (f s) = f s) :
    ∀ n, 1 ≤ n → ∀ s, applyTimes f n s = f s := by
  intro n
  induction n with
  | zero => intro h; exact absurd h (by omega)
  | succ m ih =>
    intro _ s
    show applyTimes f m (f s) = f s
    cases m with
    | zero => rfl
    | succ k => rw [ih (Nat.succ_le_succ (Nat.zero_le k)) (f s)]; exact hf s

/-! ## Field-level coalesce facts -/

theorem getD_nullif_idem (p r : String) :
    (nullifEmpty p).getD ((nullifEmpty p).getD r) = (nullifEmpty p).getD r := by
  by_cases h : p = "" <;> simp [nullifEmpty, h]

theorem getD_nullif_self (a : String) : (nullifEmpty a).getD a = a := by
  by_cases h : a = "" <;> simp [nullifEmpty, h]

theorem ite_coalesce_idem (p r : String) :
    (if p = "" then (if p = "" then r else p) else p) = (if p = "" then r else p) := by
  by_cases h : p = "" <;> simp [h]

theorem max_absorb_right (a b : Int) : max (max a b) b = max a b :=
  max_eq_left (le_max_right a b)

/-! ## Entity-level upsert facts -/

theorem updSBConversation_key (r p : SBConversation) :
    (updSBConversation r p).conversation_id = r.conversation_id := rfl

theorem updSBConversation_idem (r p : SBConversation) :
    updSBConversation (updSBConversation r p) p = updSBConversation r p := by
  cases r; cases p
  simp [updSBConversation, getD_nullif_idem, max_absorb_right]

theorem updSBConversation_self (p : SBConversation) : updSBConversation p p = p := by
  cases p
  simp [updSBConversation, getD_nullif_self]

theorem updSBMessage_key (r p : SBMessage) :
    ((updSBMessage r p).id, (updSBMessage r p).conversation_id) = (r.id, r.conversation_id) := rfl

theorem updSBMessage_idem (r p : SBMessage) :
    updSBMessage (updSBMessage r p) p = updSBMessage r p := by
  cases r; cases p
  simp [updSBMessage, getD_nullif_idem]

theorem updSBMessage_self (p : SBMessage) : updSBMessage p p = p := by
  cases p
  simp [updSBMessage, getD_nullif_self]

theorem updSBContact_idem (r p : SBContact) :
    updSBContact (updSBContact r p) p = updSBContact r p := by
  cases r; cases p
  simp [updSBContact, getD_nullif_idem]

theorem updSBContact_self (p : SBContact) : updSBContact p p = p := by
  cases p
  simp [updSBContact, getD_nullif_self]

theorem updDbConversation_key (r p : Conversation) :
    (updDbConversation r p).ConversationID = r.ConversationID := rfl

theorem updDbConversation_idem (r p : Conversation) :
    updDbConversation (updDbConversation r p) p = updDbConversation r p := by
  cases r; cases p
  simp [updDbConversation, ite_coalesce_idem, max_absorb_right]

theorem updDbConversation_self (p : Conversation) : updDbConversation p p = p := by
  cases p
  simp [updDbConversation]

theorem updDbMessage_key (r p : Message) :
    (updDbMessage r p).MessageID = r.MessageID := rfl

theorem updDbMessage_idem (r p : Message) :
    updDbMessage (updDbMessage r p) p = updDbMessage r p := by
  cases r; cases p
  simp [updDbMessage, ite_coalesce_idem]

theorem updDbMessage_self (p : Message) : updDbMessage p p = p := by
  cases p
  simp [updDbMessage]

theorem upsert_conversation_idem (t : List SBConversation) (p : SBConversation) :
    upsert_conversation (upsert_conversation t p) p = upsert_conversation t p :=
  upsertBy_idem _ _ (fun r p _ => updSBConversation_key r p)
    updSBConversation_idem updSBConversation_self t p

theorem upsert_message_idem (t : List SBMessage) (p : SBMessage) :
    upsert_message (upsert_message t p) p = upsert_message t p :=
  upsertBy_idem _ _ (fun r p _ => updSBMessage_key r p)
    updSBMessage_idem updSBMessage_self t p

theorem store_upsert_conversation_idem (s : Store) (p : Conversation) :
    (s.UpsertConversation p).UpsertConversation p = s.UpsertConversation p := by
  unfold Store.UpsertConversation
  simp [upsertBy_idem _ _ (fun r p _ => updDbConversation_key r p)
    updDbConversation_idem updDbConversation_self]

theorem store_upsert_message_idem (s : Store) (p : Message) :
    (s.UpsertMessage p).UpsertMessage p = s.UpsertMessage p := by
  unfold Store.UpsertMessage
  simp [upsertBy_idem _ _ (fun r p _ => updDbMessage_key r p)
    updDbMessage_idem updDbMessage_self]

/-! ## Key-erasure commutation (read-path confidentiality support) -/

theorem serializeMessage_eraseKey (m : Message) :
    serializeMessage (eraseKey m) = serializeMessage m := by
  cases m; rfl

theorem filter_map_eraseKey (p : Message → Bool) (hp : ∀ m, p (eraseKey m) = p m)
    (l : List Message) :
    (l.map eraseKey).filter p = (l.filter p).map eraseKey := by
  induction l with
  | nil => rfl
  | cons a t ih =>
    rcases h : p a with hf | ht
    · simp [List.filter_cons, hp, h, ih]
    · simp [List.filter_cons, hp, h, ih]

theorem orderedInsert_map_eraseKey (a : Message) (l : List Message) :
    List.orderedInsert tsGE (eraseKey a) (l.map eraseKey) =
      (List.orderedInsert tsGE a l).map eraseKey := by
  induction l with
  | nil => rfl
  | cons b t ih =>
    by_cases h : tsGE a b
    · have h2 : tsGE (eraseKey a) (eraseKey b) := h
      simp [List.orderedInsert, h, h2]
    · have h2 : ¬ tsGE (eraseKey a) (eraseKey b) := h
      simp [List.orderedInsert, h, h2, ih]

theorem insertionSort_map_eraseKey (l : List Message) :
    (l.map eraseKey).insertionSort tsGE = (l.insertionSort tsGE).map eraseKey := by
  induction l with
  | nil => rfl
  | cons a t ih => simp [List.insertionSort, ih, orderedInsert_map_eraseKey]

theorem getByConv_eraseStore (s : Store) (cid : String) (L : Nat) :
    (eraseStore s).GetMessagesByConversation cid L =
      (s.GetMessagesByConversation cid L).map eraseKey := by
  unfold eraseStore Store.GetMessagesByConversation
  rw [filter_map_eraseKey (fun m => decide (m.ConversationID = cid)) (fun m => rfl),
    insertionSort_map_eraseKey, ← List.map_take]

theorem search_eraseStore (s : Store) (q : String) (L : Nat) :
    (eraseStore s).SearchMessages q "" L = (s.SearchMessages q "" L).map eraseKey := by
  unfold eraseStore Store.SearchMessages
  rw [filter_map_eraseKey (fun m =>
      strContainsCI m.Body q && (decide (("" : String) = "") || decide (m.SenderNumber = ""))) (fun m => rfl),
    insertionSort_map_eraseKey, ← List.map_take]

theorem getMessages_eraseStore (s : Store) (phone : String) (a b : Int) (L : Nat) :
    (eraseStore s).GetMessages phone a b L = (s.GetMessages phone a b L).map eraseKey := by
  unfold eraseStore Store.GetMessages
  rw [filter_map_eraseKey (msgFilter phone a b) (fun m => rfl),
    insertionSort_map_eraseKey, ← List.map_take]

theorem apiConversationMessages_eraseStore (s : Store) (cid : String) (L : Nat) :
    apiConversationMessages (eraseStore s) cid L = apiConversationMessages s cid L := by
  unfold apiConversationMessages
  rw [getByConv_eraseStore, List.map_map]
  have : serializeMessage ∘ eraseKey = serializeMessage := funext serializeMessage_eraseKey
  rw [this]

theorem apiSearch_eraseStore (s : Store) (q : String) (L : Nat) :
    apiSearch (eraseStore s) q L = apiSearch s q L := by
  unfold apiSearch
  rw [search_eraseStore, List.map_map]
  have : serializeMessage ∘ eraseKey = serializeMessage := funext serializeMessage_eraseKey
  rw [this]

theorem apiGetMessages_eraseStore (s : Store) (phone : String) (a b : Int) (L : Nat) :
    apiGetMessages (eraseStore s) phone a b L = apiGetMessages s phone a b L := by
  unfold apiGetMessages
  rw [getMessages_eraseStore, List.map_map]
  have : serializeMessage ∘ eraseKey = serializeMessage := funext serializeMessage_eraseKey
  rw [this]

/-! ## Sorting support for the query theorems -/

theorem length_insertionSort (l : List Message) :
    (l.insertionSort tsGE).length = l.length :=
  (List.perm_insertionSort tsGE l).length_eq

theorem mem_insertionSort (m : Message) (l : List Message) :
    m ∈ l.insertionSort tsGE ↔ m ∈ l :=
  (List.perm_insertionSort tsGE l).mem_iff

theorem sorted_take_insertionSort (l : List Message) (n : Nat) :
    List.Sorted tsGE ((l.insertionSort tsGE).take n) :=
  List.Pairwise.sublist (List.take_sublist n _) (List.sorted_insertionSort tsGE l)

/-! ## Claim theorems -/

/-- Claim C1: when a message event whose id does not carry the placeholder
tag and whose from-me flag is set is successfully upserted for a
conversation, every placeholder row of that conversation is deleted,
every non-placeholder row survives, the rows of other conversations are
untouched, and the confirmed row itself is stored. -/
theorem C1_placeholder_sweep (se : Bool) (s : Store) (evt : WrappedMessage) (p : Message)
    (hp : p = buildDbMessage evt.message)
    (htmp : hasTag p.MessageID "tmp_" = false)
    (hme : p.IsFromMe = true) :
    (∀ m ∈ s.messages, m.ConversationID = p.ConversationID →
        hasTag m.MessageID "tmp_" = true →
        m ∉ ((handleMessage se false s evt).1).messages) ∧
    (∀ m ∈ s.messages, hasTag m.MessageID "tmp_" = false →
        m.MessageID ≠ p.MessageID →
        m ∈ ((handleMessage se false s evt).1).messages) ∧
    (∀ m ∈ s.messages, m.ConversationID ≠ p.ConversationID →
        m.MessageID ≠ p.MessageID →
        m ∈ ((handleMessage se false s evt).1).messages) ∧
    (∃ m ∈ ((handleMessage se false s evt).1).messages,
        m.MessageID = p.MessageID ∧ m.ConversationID = p.ConversationID) := by
  have hmsgs : ((handleMessage se false s evt).1).messages =
      (upsertBy (fun m => m.MessageID) updDbMessage s.messages p).filter
        (fun m => !(isTmpIn p.ConversationID m)) := by
    simp only [handleMessage, if_false, Bool.false_eq_true, ← hp, hme, htmp,
      Bool.not_false, Bool.and_self, if_true, Store.DeleteTmpMessages,
      Store.UpsertMessage]
  refine ⟨?_, ?_, ?_, ?_⟩
  · intro m _ hconv htm hmem
    rw [hmsgs] at hmem
    have hkeep := (List.mem_filter.mp hmem).2
    simp [isTmpIn, hconv, htm] at hkeep
  · intro m hm hnt hne
    rw [hmsgs]
    refine List.mem_filter.mpr ⟨mem_upsertBy_of_key_ne _ _ _ _ _ hm hne, ?_⟩
    simp [isTmpIn, hnt]
  · intro m hm hconv hne
    rw [hmsgs]
    refine List.mem_filter.mpr ⟨mem_upsertBy_of_key_ne _ _ _ _ _ hm hne, ?_⟩
    simp [isTmpIn, hconv]
  · have hfind := findBy_upsertBy (fun m : Message => m.MessageID) updDbMessage
      (fun r q _ => updDbMessage_key r q) s.messages p p.MessageID
    rw [if_pos rfl] at hfind
    rcases hf : findBy (fun m : Message => m.MessageID) s.messages p.MessageID with _ | r
    · rw [hf] at hfind
      refine ⟨p, ?_, rfl, rfl⟩
      rw [hmsgs]
      refine List.mem_filter.mpr ⟨findBy_mem _ _ _ _ hfind, ?_⟩
      simp [isTmpIn, htmp]
    · rw [hf] at hfind
      refine ⟨updDbMessage r p, ?_, ?_, rfl⟩
      · rw [hmsgs]
        refine List.mem_filter.mpr ⟨findBy_mem _ _ _ _ hfind, ?_⟩
        have hid : (updDbMessage r p).MessageID = p.MessageID := by
          rw [updDbMessage_key]
          exact findBy_some_key _ _ _ _ hf
        simp [isTmpIn, hid, htmp]
      · rw [updDbMessage_key]
        exact findBy_some_key _ _ _ _ hf

/-- A bare message row used in concrete instances. -/
def mkMsg (id conv : String) (ts : Int) : Message :=
  { MessageID := id, ConversationID := conv, SenderName := "", SenderNumber := "",
    Body := "", TimestampMS := ts, Status := "", IsFromMe := false,
    MediaID := "", MimeType := "", DecryptionKey := "", Reactions := "", ReplyToID := "" }

def c1Store : Store :=
  { conversations := [],
    messages := [mkMsg "tmp_aaa" "c1" 1000, mkMsg "tmp_bbb" "c1" 1001,
                 mkMsg "real-1" "c1" 900, mkMsg "tmp_ccc" "c2" 1000],
    contacts := [], drafts := [] }

def c1Evt : WrappedMessage :=
  { message :=
    { messageID := "srv-1", conversationID := "c1", timestampMicros := 2000000,
      messageStatus := some "OUTGOING_DELIVERED",
      senderParticipant := some { fullName := "Me", idNumber := some "+15551234567",
                                  formattedNumber := "", isMe := true },
      contentParts := ["hi"], media := none, reactionSet := none, replyToID := "" },
    isOld := false }

/-- Concrete instance of claim C1: the confirmed from-me echo removes the
placeholders of its conversation, keeps the real row, and leaves the
placeholder of the other conversation alone. -/
theorem C1_placeholder_sweep_witness :
    (mkMsg "tmp_aaa" "c1" 1000) ∉ ((handleMessage true false c1Store c1Evt).1).messages ∧
    (mkMsg "real-1" "c1" 900) ∈ ((handleMessage true false c1Store c1Evt).1).messages ∧
    (mkMsg "tmp_ccc" "c2" 1000) ∈ ((handleMessage true false c1Store c1Evt).1).messages :=
  have hthm := C1_placeholder_sweep true c1Store c1Evt (buildDbMessage c1Evt.message)
    rfl (by decide) (by decide)
  ⟨hthm.1 _ (by decide) (by decide) (by decide),
   hthm.2.1 _ (by decide) (by decide) (by decide),
   hthm.2.2.1 _ (by decide) (by decide) (by decide)⟩

/-- Claim C2: neither the SQL conversation upsert, nor the primary store
conversation upsert, nor the send-time recency bump ever moves a stored
last-message timestamp backward; in particular an update carrying an
older timestamp after a newer one leaves the newer value stored. -/
theorem C2_monotonic_timestamp :
    (∀ (t : List SBConversation) (p : SBConversation) (k : String) (r₀ : SBConversation),
       findBy (fun c => c.conversation_id) t k = some r₀ →
       ∃ r₁, findBy (fun c => c.conversation_id) (upsert_conversation t p) k = some r₁ ∧
         r₀.last_message_time ≤ r₁.last_message_time) ∧
    (∀ (s : Store) (p : Conversation) (k : String) (r₀ : Conversation),
       findBy (fun c => c.ConversationID) s.conversations k = some r₀ →
       ∃ r₁, findBy (fun c => c.ConversationID) (s.UpsertConversation p).conversations k = some r₁ ∧
         r₀.LastMessageTS ≤ r₁.LastMessageTS) ∧
    (∀ (s : Store) (cid : String) (ts : Int) (k : String) (r₀ : Conversation),
       findBy (fun c => c.ConversationID) s.conversations k = some r₀ →
       ∃ r₁, findBy (fun c => c.ConversationID)
           (s.UpdateConversationTimestamp cid ts).conversations k = some r₁ ∧
         r₀.LastMessageTS ≤ r₁.LastMessageTS) ∧
    (∀ (c1 c2 : SBConversation), c2.conversation_id = c1.conversation_id →
       c2.last_message_time < c1.last_message_time →
       (upsert_conversation (upsert_conversation [] c1) c2).map (fun c => c.last_message_time) =
         [c1.last_message_time]) ∧
    (∀ (p1 p2 : Conversation), p2.ConversationID = p1.ConversationID →
       p2.LastMessageTS < p1.LastMessageTS →
       ((emptyStore.UpsertConversation p1).UpsertConversation p2).conversations.map
           (fun c => c.LastMessageTS) = [p1.LastMessageTS]) := by
  refine ⟨?_, ?_, ?_, ?_, ?_⟩
  · intro t p k r₀ h
    have hf := findBy_upsertBy (fun c : SBConversation => c.conversation_id)
      updSBConversation (fun r q _ => updSBConversation_key r q) t p k
    by_cases hc : p.conversation_id = k
    · rw [if_pos hc, h] at hf
      exact ⟨updSBConversation r₀ p, hf, le_max_left _ _⟩
    · rw [if_neg hc, h] at hf
      exact ⟨r₀, hf, le_refl _⟩
  · intro s p k r₀ h
    have hf := findBy_upsertBy (fun c : Conversation => c.ConversationID)
      updDbConversation (fun r q _ => updDbConversation_key r q) s.conversations p k
    simp only [Store.UpsertConversation]
    by_cases hc : p.ConversationID = k
    · rw [if_pos hc, h] at hf
      exact ⟨updDbConversation r₀ p, hf, le_max_left _ _⟩
    · rw [if_neg hc, h] at hf
      exact ⟨r₀, hf, le_refl _⟩
  · intro s cid ts k r₀ h
    have hf := findBy_map_preserve (fun c : Conversation => c.ConversationID)
      (fun c => if c.ConversationID = cid then { c with LastMessageTS := max c.LastMessageTS ts } else c)
      (fun a => by by_cases ha : a.ConversationID = cid <;> simp [ha]) s.conversations k
    simp only [Store.UpdateConversationTimestamp]
    rw [hf, h]
    by_cases hc : r₀.ConversationID = cid
    · exact ⟨_, rfl, by simp [hc, le_max_left]⟩
    · exact ⟨_, rfl, by simp [hc]⟩
  · intro c1 c2 hid hlt
    simp [upsert_conversation, upsertBy, hid, updSBConversation,
      max_eq_left (le_of_lt hlt)]
  · intro p1 p2 hid hlt
    simp [Store.UpsertConversation, emptyStore, upsertBy, hid, updDbConversation,
      max_eq_left (le_of_lt hlt)]

def sbConvAt (ts : Int) : SBConversation :=
  { conversation_id := "conv-1", name := "Alice", last_message_time := ts,
    is_group := false, last_message_preview := "" }

/-- Concrete instance of claim C2: an update with timestamp 1000 after an
update with timestamp 2000 leaves the stored timestamp at 2000. -/
theorem C2_monotonic_timestamp_witness :
    (upsert_conversation (upsert_conversation [] (sbConvAt 2000)) (sbConvAt 1000)).map
      (fun c => c.last_message_time) = [(sbConvAt 2000).last_message_time] :=
  C2_monotonic_timestamp.2.2.2.1 (sbConvAt 2000) (sbConvAt 1000) (by decide) (by decide)

/-- Claim C3: in the SQL upserts, an incoming empty value for the message
content, media type, media url, conversation name, preview or contact
name leaves the stored value of that field unchanged. -/
theorem C3_coalesce_by_nonemptiness :
    (∀ (t : List SBMessage) (p : SBMessage) (r₀ : SBMessage),
       findBy (fun m => (m.id, m.conversation_id)) t (p.id, p.conversation_id) = some r₀ →
       ∃ r₁, findBy (fun m => (m.id, m.conversation_id)) (upsert_message t p)
           (p.id, p.conversation_id) = some r₁ ∧
         (p.content = "" → r₁.content = r₀.content) ∧
         (p.media_type = "" → r₁.media_type = r₀.media_type) ∧
         (p.media_url = "" → r₁.media_url = r₀.media_url)) ∧
    (∀ (t : List SBConversation) (p : SBConversation) (r₀ : SBConversation),
       findBy (fun c => c.conversation_id) t p.conversation_id = some r₀ →
       ∃ r₁, findBy (fun c => c.conversation_id) (upsert_conversation t p)
           p.conversation_id = some r₁ ∧
         (p.name = "" → r₁.name = r₀.name) ∧
         (p.last_message_preview = "" → r₁.last_message_preview = r₀.last_message_preview)) ∧
    (∀ (t : List SBContact) (p : SBContact) (r₀ : SBContact),
       findBy (fun c => c.number) t p.number = some r₀ →
       ∃ r₁, findBy (fun c => c.number) (upsert_contact t p) p.number = some r₁ ∧
         (p.name = "" → r₁.name = r₀.name)) := by
  refine ⟨?_, ?_, ?_⟩
  · intro t p r₀ h
    have hf := findBy_upsertBy (fun m : SBMessage => (m.id, m.conversation_id))
      updSBMessage (fun r q _ => updSBMessage_key r q) t p (p.id, p.conversation_id)
    rw [if_pos rfl, h] at hf
    refine ⟨updSBMessage r₀ p, hf, ?_, ?_, ?_⟩ <;>
      intro he <;> simp [updSBMessage, nullifEmpty, he]
  · intro t p r₀ h
    have hf := findBy_upsertBy (fun c : SBConversation => c.conversation_id)
      updSBConversation (fun r q _ => updSBConversation_key r q) t p p.conversation_id
    rw [if_pos rfl, h] at hf
    refine ⟨updSBConversation r₀ p, hf, ?_, ?_⟩ <;>
      intro he <;> simp [updSBConversation, nullifEmpty, he]
  · intro t p r₀ h
    have hf := findBy_upsertBy (fun c : SBContact => c.number)
      updSBContact (fun r q _ => rfl) t p p.number
    rw [if_pos rfl, h] at hf
    refine ⟨updSBContact r₀ p, hf, ?_⟩
    intro he
    simp [updSBContact, nullifEmpty, he]

def sbHello : SBMessage :=
  { id := "m1", conversation_id := "c1", sender_name := "Alice", sender_number := "+1555",
    content := "Hello", timestamp := 1000, is_from_me := false, media_type := "", media_url := "" }

def sbEmpty : SBMessage :=
  { id := "m1", conversation_id := "c1", sender_name := "", sender_number := "",
    content := "", timestamp := 2000, is_from_me := false, media_type := "", media_url := "" }

/-- Concrete instance of claim C3: upserting m1 with body Hello then again
with an empty body leaves the stored body Hello. -/
theorem C3_coalesce_by_nonemptiness_witness :
    (∃ r₁, findBy (fun m : SBMessage => (m.id, m.conversation_id))
        (upsert_message [sbHello] sbEmpty) (sbEmpty.id, sbEmpty.conversation_id) = some r₁ ∧
        (sbEmpty.content = "" → r₁.content = sbHello.content) ∧
        (sbEmpty.media_type = "" → r₁.media_type = sbHello.media_type) ∧
        (sbEmpty.media_url = "" → r₁.media_url = sbHello.media_url)) ∧
    (updSBMessage sbHello sbEmpty).content = "Hello" :=
  ⟨C3_coalesce_by_nonemptiness.1 [sbHello] sbEmpty sbHello (by decide), by decide⟩

/-- Claim C4: applying the same conversation or message upsert N times,
for any N at least one, yields the same stored table as applying it once
— for the SQL upserts and for the primary store upserts alike. -/
theorem C4_upsert_idempotent (N : Nat) (hN : 1 ≤ N) :
    (∀ (t : List SBConversation) (p : SBConversation),
       applyTimes (fun u => upsert_conversation u p) N t = upsert_conversation t p) ∧
    (∀ (t : List SBMessage) (p : SBMessage),
       applyTimes (fun u => upsert_message u p) N t = upsert_message t p) ∧
    (∀ (s : Store) (p : Conversation),
       applyTimes (fun u => Store.UpsertConversation u p) N s = s.UpsertConversation p) ∧
    (∀ (s : Store) (p : Message),
       applyTimes (fun u => Store.UpsertMessage u p) N s = s.UpsertMessage p) :=
  ⟨fun t p => applyTimes_of_idem _ (fun u => upsert_conversation_idem u p) N hN t,
   fun t p => applyTimes_of_idem _ (fun u => upsert_message_idem u p) N hN t,
   fun s p => applyTimes_of_idem _ (fun u => store_upsert_conversation_idem u p) N hN s,
   fun s p => applyTimes_of_idem _ (fun u => store_upsert_message_idem u p) N hN s⟩

/-- Concrete instance of claim C4: three applications of the same message
upsert equal one application. -/
theorem C4_upsert_idempotent_witness :
    applyTimes (fun u => upsert_message u sbHello) 3 [] = upsert_message [] sbHello :=
  (C4_upsert_idempotent 3 (by decide)).2.1 [] sbHello

/-- A raw message payload with every optional field absent. -/
def emptyGMessage : GMessage :=
  { messageID := "", conversationID := "", timestampMicros := 0, messageStatus := none,
    senderParticipant := none, contentParts := [], media := none, reactionSet := none,
    replyToID := "" }

/-- Claim C5: the dispatcher is a total function that performs no store
mutation and emits no sink work on an unrecognized event variant, and a
message payload with all optional fields absent is stored as exactly one
row with the documented defaults: empty body and the unknown status. -/
theorem C5_malformed_tolerance :
    (∀ (se pf : Bool) (s : Store), Handle se pf s Event.unrecognized = (s, noEffects)) ∧
    (∀ se : Bool,
       ((Handle se false emptyStore (Event.messageReceived ⟨emptyGMessage, false⟩)).1).messages =
         [{ MessageID := "", ConversationID := "", SenderName := "", SenderNumber := "",
            Body := "", TimestampMS := 0, Status := "unknown", IsFromMe := false,
            MediaID := "", MimeType := "", DecryptionKey := "", Reactions := "",
            ReplyToID := "" }]) := by
  constructor
  · intro se pf s
    rfl
  · intro se
    cases se <;> rfl

/-- Claim C6: the deferred secondary sink call is emitted only after the
primary store write succeeded — a failed primary write leaves the store
untouched and emits nothing — and the primary store outcome is identical
under any sink failure behavior, so sink failures are never surfaced. -/
theorem C6_sink_isolation :
    (∀ (se : Bool) (s : Store) (evt : WrappedMessage),
       handleMessage se true s evt = (s, [])) ∧
    (∀ (se pf : Bool) (s : Store) (evt : WrappedMessage),
       (handleMessage se pf s evt).2 ≠ [] → pf = false) ∧
    (∀ (se pf : Bool) (f₁ f₂ : SinkMessageCall → Bool) (s : Store) (evt : WrappedMessage),
       (dispatchMessage se pf f₁ s evt).1 = (dispatchMessage se pf f₂ s evt).1) := by
  refine ⟨fun se s evt => rfl, ?_, fun se pf f₁ f₂ s evt => rfl⟩
  intro se pf s evt h
  cases pf
  · rfl
  · exact absurd rfl h

def c6Evt : WrappedMessage :=
  { message :=
    { messageID := "m-c6", conversationID := "c6", timestampMicros := 5000000,
      messageStatus := some "INCOMING_COMPLETE", senderParticipant := none,
      contentParts := ["hello"], media := none, reactionSet := none, replyToID := "" },
    isOld := false }

/-- Concrete instance of claim C6: with the sink enabled and the primary
write succeeding, the emitted sink call list is non-empty, so the
contrapositive of the ordering conjunct applies; and a failing primary
write produces no call. -/
theorem C6_sink_isolation_witness :
    handleMessage true true c1Store c6Evt = (c1Store, []) ∧
    ((handleMessage true false c1Store c6Evt).2 ≠ [] ∧ false = false) ∧
    (dispatchMessage true false (fun _ => true) c1Store c6Evt).1 =
      (dispatchMessage true false (fun _ => false) c1Store c6Evt).1 :=
  ⟨C6_sink_isolation.1 true c1Store c6Evt,
   ⟨by decide, C6_sink_isolation.2.1 true false c1Store c6Evt (by decide)⟩,
   C6_sink_isolation.2.2 true false (fun _ => true) (fun _ => false) c1Store c6Evt⟩

/-- Claim C7: with the sink wired and the primary write succeeding, the
conversation handler emits exactly one contact upsert per non-self
participant with a non-empty routing number and none for the self
participant; on the Alice-plus-self list exactly one upsert, for Alice. -/
theorem C7_participant_fanout :
    (∀ (s : Store) (conv : GConversation),
       (handleConversation true false s conv).2.2 =
         ((conv.participants.map toPInfo).filter
             (fun i => !(decide (i.number = "")) && !i.isMe)).map
           (fun i => { number := i.number, name := i.name })) ∧
    ((handleConversation true false emptyStore
        { conversationID := "conv-1", name := "Alice", isGroupChat := false,
          participants :=
            [{ fullName := "Alice", idNumber := some "+15551234567",
               formattedNumber := "", isMe := false },
             { fullName := "", idNumber := none, formattedNumber := "+15550000000",
               isMe := true }],
          lastMessageTimestampMicros := 1000000, unread := false }).2.2 =
      [{ number := "+15551234567", name := "Alice" }]) := by
  exact ⟨fun s conv => rfl, by decide⟩

/-- Claim C8: serialized read responses carry no decryption-key field,
and any two stores that agree after blanking decryption keys produce
identical responses on the conversation message listing, the search
endpoint and the filtered message query. -/
theorem C8_key_confidentiality :
    (∀ m : Message, serializeMessage (eraseKey m) = serializeMessage m ∧
       ∀ kv ∈ serializeMessage m, kv.1 ≠ "DecryptionKey") ∧
    (∀ s₁ s₂ : Store, eraseStore s₁ = eraseStore s₂ →
       (∀ (cid : String) (L : Nat),
          apiConversationMessages s₁ cid L = apiConversationMessages s₂ cid L) ∧
       (∀ (q : String) (L : Nat), apiSearch s₁ q L = apiSearch s₂ q L) ∧
       (∀ (phone : String) (a b : Int) (L : Nat),
          apiGetMessages s₁ phone a b L = apiGetMessages s₂ phone a b L)) := by
  constructor
  · intro m
    refine ⟨serializeMessage_eraseKey m, ?_⟩
    have hall : (serializeMessage m).all (fun kv => !(decide (kv.1 = "DecryptionKey"))) = true := by
      unfold serializeMessage
      split_ifs <;> rfl
    intro kv hkv
    have := List.all_eq_true.mp hall kv hkv
    simpa using this
  · intro s₁ s₂ h
    refine ⟨fun cid L => ?_, fun q L => ?_, fun phone a b L => ?_⟩
    · calc apiConversationMessages s₁ cid L
          = apiConversationMessages (eraseStore s₁) cid L :=
            (apiConversationMessages_eraseStore s₁ cid L).symm
        _ = apiConversationMessages (eraseStore s₂) cid L := by rw [h]
        _ = apiConversationMessages s₂ cid L := apiConversationMessages_eraseStore s₂ cid L
    · calc apiSearch s₁ q L
          = apiSearch (eraseStore s₁) q L := (apiSearch_eraseStore s₁ q L).symm
        _ = apiSearch (eraseStore s₂) q L := by rw [h]
        _ = apiSearch s₂ q L := apiSearch_eraseStore s₂ q L
    · calc apiGetMessages s₁ phone a b L
          = apiGetMessages (eraseStore s₁) phone a b L :=
            (apiGetMessages_eraseStore s₁ phone a b L).symm
        _ = apiGetMessages (eraseStore s₂) phone a b L := by rw [h]
        _ = apiGetMessages s₂ phone a b L := apiGetMessages_eraseStore s₂ phone a b L

def keyedMsg (k : String) : Message :=
  { mkMsg "m1" "c1" 1000 with Body := "hi", DecryptionKey := k }

def keyStore1 : Store := { conversations := [], messages := [keyedMsg "deadbeef"], contacts := [], drafts := [] }

def keyStore2 : Store := { conversations := [], messages := [keyedMsg "00ff"], contacts := [], drafts := [] }

/-- Concrete instance of claim C8: two stores differing only in one
message decryption key give identical message-listing responses. -/
theorem C8_key_confidentiality_witness :
    keyStore1 ≠ keyStore2 ∧
    apiConversationMessages keyStore1 "c1" 10 = apiConversationMessages keyStore2 "c1" 10 :=
  ⟨by decide, ((C8_key_confidentiality.2 keyStore1 keyStore2 (by decide)).1 "c1" 10)⟩

/-- Claim C9: with a limit at least the table size, the sender-filtered
query returns exactly the rows of that sender, the range-filtered query
returns exactly the rows inside the inclusive bounds, and every query
result is ordered newest-first. -/
theorem C9_query_correctness (s : Store) (L : Nat) (hL : s.messages.length ≤ L) :
    (∀ phone : String, phone ≠ "" →
       ∀ m : Message, m ∈ s.GetMessages phone 0 0 L ↔
         m ∈ s.messages ∧ m.SenderNumber = phone) ∧
    (∀ a b : Int, a ≠ 0 → b ≠ 0 →
       ∀ m : Message, m ∈ s.GetMessages "" a b L ↔
         m ∈ s.messages ∧ a ≤ m.TimestampMS ∧ m.TimestampMS ≤ b) ∧
    (∀ (phone : String) (a b : Int), List.Sorted tsGE (s.GetMessages phone a b L)) := by
  refine ⟨?_, ?_, ?_⟩
  · intro phone hph m
    unfold Store.GetMessages
    have hlen : ((s.messages.filter (msgFilter phone 0 0)).insertionSort tsGE).length ≤ L := by
      rw [length_insertionSort]
      exact le_trans (List.length_filter_le _ _) hL
    rw [List.take_of_length_le hlen, mem_insertionSort]
    have h0 : decide (phone = "") = false := by simp [hph]
    simp [List.mem_filter, msgFilter, h0]
  · intro a b ha hb m
    unfold Store.GetMessages
    have hlen : ((s.messages.filter (msgFilter "" a b)).insertionSort tsGE).length ≤ L := by
      rw [length_insertionSort]
      exact le_trans (List.length_filter_le _ _) hL
    rw [List.take_of_length_le hlen, mem_insertionSort]
    simp [List.mem_filter, msgFilter, ha, hb, and_assoc]
  · intro phone a b
    unfold Store.GetMessages
    exact sorted_take_insertionSort _ _

/-- A bare message row with a sender number, for concrete instances. -/
def mkMsgFrom (id conv number : String) (ts : Int) : Message :=
  { mkMsg id conv ts with SenderNumber := number }

def demoStore : Store :=
  { conversations := [],
    messages := [mkMsgFrom "m1" "c1" "+1111" 1000, mkMsgFrom "m2" "c1" "+2222" 2000,
                 mkMsgFrom "m3" "c1" "+1111" 3000, mkMsgFrom "m4" "c2" "+1111" 4000,
                 mkMsgFrom "m5" "c2" "+3333" 5000],
    contacts := [], drafts := [] }

/-- Concrete instance of claim C9: on the five demo messages, the range
2000..4000 returns exactly three rows, the row at 3000 among them, and
the sender filter returns the matching rows newest-first. -/
theorem C9_query_correctness_witness :
    demoStore.messages.length ≤ 100 ∧
    (mkMsgFrom "m3" "c1" "+1111" 3000 ∈ demoStore.GetMessages "" 2000 4000 100 ↔
       mkMsgFrom "m3" "c1" "+1111" 3000 ∈ demoStore.messages ∧
       (2000 : Int) ≤ (mkMsgFrom "m3" "c1" "+1111" 3000).TimestampMS ∧
       (mkMsgFrom "m3" "c1" "+1111" 3000).TimestampMS ≤ 4000) ∧
    (demoStore.GetMessages "" 2000 4000 100).map (fun m => m.MessageID) = ["m4", "m3", "m2"] ∧
    (demoStore.GetMessages "+1111" 0 0 100).map (fun m => m.MessageID) = ["m4", "m3", "m1"] :=
  ⟨by decide,
   (C9_query_correctness demoStore 100 (by decide)).2.1 2000 4000 (by decide) (by decide)
     (mkMsgFrom "m3" "c1" "+1111" 3000),
   by decide, by decide⟩

/-- Claim C10: the secondary sink writer UpsertMessage returns nil with
no remote call exactly when both the content and the media type are
empty, so body-less media-less rows are never mirrored. -/
theorem C10_empty_never_mirrored (id cid sn snum : String) (ts : Int) (fm : Bool) (mu : String) :
    writerUpsertMessage id cid sn snum "" ts fm "" mu = none ∧
    (∀ content mt : String,
       writerUpsertMessage id cid sn snum content ts fm mt mu = none →
       content = "" ∧ mt = "") := by
  constructor
  · simp [writerUpsertMessage]
  · intro content mt h
    by_cases hcm : content = "" ∧ mt = ""
    · exact hcm
    · simp [writerUpsertMessage, hcm] at h

/-- Concrete instance of claim C10: an empty-content, empty-media-type
message is not mirrored. -/
theorem C10_empty_never_mirrored_witness :
    writerUpsertMessage "tmp_1" "c1" "" "" "" 1000 true "" "" = none ∧
    ("" : String) = "" ∧ ("" : String) = "" :=
  ⟨(C10_empty_never_mirrored "tmp_1" "c1" "" "" 1000 true "").1,
   (C10_empty_never_mirrored "tmp_1" "c1" "" "" 1000 true "").2 "" "" (by decide)⟩
